import Mathlib

/-!
Shallow embedding of the Memory Scramble board (src/board.ts).

The TypeScript class `Board` keeps parallel matrices `cards`, `faceUp`,
`control`, a per-player session map `playerState`, a per-cell FIFO wait
queue `waiting`, and a list of registered `watchers`.  We embed the
matrices as total functions `Nat → Nat → _` (JavaScript out-of-bounds
array reads yield `undefined`, which the source treats like a missing
card; the constructor below yields `none` outside the grid, matching
that behaviour).  The player-state map is embedded as a total function
`String → Session` whose default value is the empty session, which is
observationally the same as the lazy `playerState.set(player, {})`
initialisation in the source.

Asynchrony is embedded by splitting `flipCard` at its single `await`
point: `flipCard` either completes in one step or returns a `blocked`
outcome after enqueueing the caller (source lines 244-250), and
`flipAfterWait` is the continuation that runs after the waiter is woken.
Waiter tokens are the player names; watcher tokens are naturals supplied
by the caller of `watch`.  Every `Deferred.resolve` performed by an
operation is reported as an explicit `Event` in the operation result.
-/

/-- A pick recorded in a player session (source `{ row, col, card }`). -/
structure Pick where
  row : Nat
  col : Nat
  card : String
deriving DecidableEq, Repr

/-- Per-player session state (source `playerState` map entries). -/
structure Session where
  first : Option Pick := none
  second : Option Pick := none
  lastMatch : Option (List Pick) := none
  lastMismatch : Option (List Pick) := none
deriving DecidableEq, Repr

/-- Resolution events emitted by board operations: `wake w` models
`Deferred.resolve` on the wait-queue entry of player `w` (source
`releaseControl`), `notify ws` models `notifyWatchers` resolving the
watcher tokens `ws`. -/
inductive Event where
  | wake (w : String)
  | notify (ws : List Nat)
deriving DecidableEq, Repr

/-- The board state (source class `Board` fields). -/
structure Board where
  rows : Nat
  cols : Nat
  cards : Nat → Nat → Option String
  faceUp : Nat → Nat → Bool
  control : Nat → Nat → Option String
  playerState : String → Session
  waiting : Nat → Nat → List String
  watchers : List Nat

/-- Outcome of a `flipCard` call.  The thrown errors of the source are
returned as explicit constructors; `blocked` is the suspension at the
`await deferred.promise` of the contended-first-pick wait. -/
inductive FlipOutcome where
  | ok
  | blocked
  | invalidCoordinates
  | noCard
  | controlledByOther
  | alreadyControlled
  | protocolViolation
  | invariantViolation
deriving DecidableEq, Repr

/-- Result of a board operation: outcome, post-state and the resolution
events performed, in order. -/
structure FlipResult where
  outcome : FlipOutcome
  board : Board
  events : List Event

/-- Pointwise update of a two-argument function at one cell. -/
def upd2 {α : Type} (f : Nat → Nat → α) (r c : Nat) (v : α) : Nat → Nat → α :=
  fun r1 c1 => if r1 = r ∧ c1 = c then v else f r1 c1

/-- Pointwise update of the player-state map at one player. -/
def updS (f : String → Session) (p : String) (s : Session) : String → Session :=
  fun q => if q = p then s else f q

/-- JavaScript truthiness of a `string | null` value: `null` and the
empty string are falsy. -/
def truthy : Option String → Bool
  | none => false
  | some s => !(s = "")

/-- Board construction (source constructor): all cards face down, no
controllers, no sessions, empty queues, no watchers.  Out-of-range
lookups give `none`, like `undefined` array reads in the source. -/
def mkBoard (rows cols : Nat) (init : List (List String)) : Board where
  rows := rows
  cols := cols
  cards := fun r c => (init.get? r).bind fun row => row.get? c
  faceUp := fun _ _ => false
  control := fun _ _ => none
  playerState := fun _ => {}
  waiting := fun _ _ => []
  watchers := []

/-- The `checkRep` scan (source lines 61-92): positive dimensions, and
for every in-range cell, a removed card is neither face up nor
controlled.  The shape checks on the raw arrays (`row !== undefined`,
row lengths, `card === undefined`) are about the array representation
and are vacuous for the total-function embedding. -/
def checkRepB (b : Board) : Bool :=
  decide (0 < b.rows) && decide (0 < b.cols) &&
    (List.range b.rows).all fun r =>
      (List.range b.cols).all fun c =>
        match b.cards r c with
        | none => !(b.faceUp r c) && decide (b.control r c = none)
        | some _ => true

/-- The `releaseControl` helper (source lines 178-186): pop the first
waiter of the cell queue, if any, and resolve it. -/
def releaseControl (b : Board) (row col : Nat) : Board × List Event :=
  match b.waiting row col with
  | [] => (b, [])
  | w :: rest => ({ b with waiting := upd2 b.waiting row col rest }, [Event.wake w])

/-- The `notifyWatchers` helper (source lines 418-423): resolve every
registered watcher and clear the registry. -/
def notifyWatchers (b : Board) : Board × List Event :=
  ({ b with watchers := [] }, [Event.notify b.watchers])

/-- Loop body of rule 3A (source lines 214-221): if the card of this
position of the matched pair still exists, clear the cell (face down,
uncontrolled, removed) and release its queue. -/
def cleanup3AStep (acc : Board × List Event) (pos : Pick) : Board × List Event :=
  let b1 := acc.1
  if b1.cards pos.row pos.col ≠ none then
    let b2 := { b1 with
      faceUp := upd2 b1.faceUp pos.row pos.col false
      control := upd2 b1.control pos.row pos.col none
      cards := upd2 b1.cards pos.row pos.col none }
    let rel := releaseControl b2 pos.row pos.col
    (rel.1, acc.2 ++ rel.2)
  else acc

/-- Rule 3A (source lines 213-224): remove every still-present card of
the player's last matched pair, releasing the cells, then notify. -/
def cleanup3A (b : Board) (p : String) : Board × List Event :=
  match (b.playerState p).lastMatch with
  | none => (b, [])
  | some posl =>
    let folded := posl.foldl cleanup3AStep (b, [])
    let b3 := { folded.1 with
      playerState := updS folded.1.playerState p
        { folded.1.playerState p with lastMatch := none } }
    let noti := notifyWatchers b3
    (noti.1, folded.2 ++ noti.2)

/-- Loop body of rule 3B (source lines 229-237): flip this position of
the mismatched pair back down when it still exists, is uncontrolled and
face up, recording whether anything was flipped. -/
def cleanup3BStep (acc : Board × Bool) (pos : Pick) : Board × Bool :=
  let b1 := acc.1
  if b1.cards pos.row pos.col ≠ none ∧ b1.control pos.row pos.col = none ∧
      b1.faceUp pos.row pos.col = true then
    ({ b1 with faceUp := upd2 b1.faceUp pos.row pos.col false }, true)
  else acc

/-- Rule 3B (source lines 227-240): flip the player's last mismatched
cards back down when they still exist, are uncontrolled and face up;
notify only if some card was actually flipped down. -/
def cleanup3B (b : Board) (p : String) : Board × List Event :=
  match (b.playerState p).lastMismatch with
  | none => (b, [])
  | some posl =>
    let folded := posl.foldl cleanup3BStep (b, false)
    let b3 := { folded.1 with
      playerState := updS folded.1.playerState p
        { folded.1.playerState p with lastMismatch := none } }
    if folded.2 then notifyWatchers b3 else (b3, [])

/-- Deferred cleanup (source lines 211-241): rules 3A and 3B run only
when the player holds no pick. -/
def cleanupStep (b : Board) (p : String) : Board × List Event :=
  if (b.playerState p).first = none ∧ (b.playerState p).second = none then
    let a := cleanup3A b p
    let m := cleanup3B a.1 p
    (m.1, a.2 ++ m.2)
  else (b, [])

/-- The part of `flipCard` after the contended-first-pick wait (source
lines 252-322): first-pick resolution, second-pick resolution with the
double-click no-op and the 2A/2B failure branches, match/mismatch
comparison, and the third-pick error. -/
def flipAfterWait (b : Board) (p : String) (row col : Nat) : FlipResult :=
  let st := b.playerState p
  match st.first with
  | none =>
    match b.cards row col with
    | none => ⟨FlipOutcome.noCard, b, []⟩
    | some card =>
      if truthy (b.control row col) = true ∧ b.control row col ≠ some p then
        ⟨FlipOutcome.controlledByOther, b, []⟩
      else
        let b1 := { b with
          faceUp := upd2 b.faceUp row col true
          control := upd2 b.control row col (some p)
          playerState := updS b.playerState p
            { st with first := some ⟨row, col, card⟩ } }
        let noti := notifyWatchers b1
        ⟨FlipOutcome.ok, noti.1, noti.2⟩
  | some fp =>
    match st.second with
    | some _ => ⟨FlipOutcome.protocolViolation, b, []⟩
    | none =>
      if row = fp.row ∧ col = fp.col then
        ⟨FlipOutcome.ok, b, []⟩
      else
        match b.cards row col with
        | none =>
          let b1 := { b with control := upd2 b.control fp.row fp.col none }
          let rel := releaseControl b1 fp.row fp.col
          let b2 := { rel.1 with
            playerState := updS rel.1.playerState p
              { st with lastMismatch := some [fp], first := none } }
          let noti := notifyWatchers b2
          ⟨FlipOutcome.noCard, noti.1, rel.2 ++ noti.2⟩
        | some card2 =>
          if truthy (b.control row col) = true ∧ b.control row col ≠ some p then
            let b1 := { b with control := upd2 b.control fp.row fp.col none }
            let rel := releaseControl b1 fp.row fp.col
            let b2 := { rel.1 with
              playerState := updS rel.1.playerState p
                { st with lastMismatch := some [fp], first := none } }
            let noti := notifyWatchers b2
            ⟨FlipOutcome.alreadyControlled, noti.1, rel.2 ++ noti.2⟩
          else
            let sc : Pick := ⟨row, col, card2⟩
            let b1 := { b with
              faceUp := upd2 b.faceUp row col true
              control := upd2 b.control row col (some p)
              playerState := updS b.playerState p
                { st with second := some sc } }
            let noti1 := notifyWatchers b1
            let b2 := noti1.1
            if fp.card = sc.card then
              let b3 := { b2 with
                playerState := updS b2.playerState p
                  { st with lastMatch := some [fp, sc], first := none, second := none } }
              let noti2 := notifyWatchers b3
              ⟨FlipOutcome.ok, noti2.1, noti1.2 ++ noti2.2⟩
            else
              let b3 := { b2 with
                control := upd2 (upd2 b2.control fp.row fp.col none) sc.row sc.col none }
              let rel1 := releaseControl b3 fp.row fp.col
              let rel2 := releaseControl rel1.1 sc.row sc.col
              let b4 := { rel2.1 with
                playerState := updS rel2.1.playerState p
                  { st with lastMismatch := some [fp, sc], first := none, second := none } }
              let noti2 := notifyWatchers b4
              ⟨FlipOutcome.ok, noti2.1, noti1.2 ++ rel1.2 ++ rel2.2 ++ noti2.2⟩

/-- The `flipCard` entry point (source lines 193-322): rep check,
coordinate validation, deferred cleanup, and either suspension on a
contended first pick (outcome `blocked`, caller enqueued FIFO) or the
first/second-pick resolution of `flipAfterWait`. -/
def flipCard (b : Board) (p : String) (row col : Nat) : FlipResult :=
  if checkRepB b = true then
    if row < b.rows ∧ col < b.cols then
      let cl := cleanupStep b p
      let b1 := cl.1
      let st := b1.playerState p
      if st.first = none ∧ st.second = none ∧ b1.faceUp row col = true ∧
          truthy (b1.control row col) = true ∧ b1.control row col ≠ some p then
        ⟨FlipOutcome.blocked,
          { b1 with waiting := upd2 b1.waiting row col (b1.waiting row col ++ [p]) },
          cl.2⟩
      else
        let res := flipAfterWait b1 p row col
        ⟨res.outcome, res.board, cl.2 ++ res.events⟩
    else ⟨FlipOutcome.invalidCoordinates, b, []⟩
  else ⟨FlipOutcome.invariantViolation, b, []⟩

/-- Row-major list of all in-range cells, mirroring the nested `for`
loops of `mapCards` and `toDisplayString`. -/
def allCells (rows cols : Nat) : List (Nat × Nat) :=
  (List.range rows).flatMap fun r => (List.range cols).map fun c => (r, c)

/-- The optimistic write-back of one `mapCards` task (source lines
400-402): write the transformed value only if the cell content was not
removed in the meantime. -/
def mapCellWrite (b : Board) (r c : Nat) (v : String) : Board :=
  if b.cards r c ≠ none then { b with cards := upd2 b.cards r c (some v) } else b

/-- One whole `mapCards` per-cell task (source lines 394-404): skip
removed cells, otherwise compute `f card` and write it back. -/
def mapCellTask (f : String → String) (b : Board) (r c : Nat) : Board :=
  match b.cards r c with
  | none => b
  | some card => mapCellWrite b r c (f card)

/-- One per-cell task at a packed cell address, the loop body of
`mapCards`. -/
def mapCellTaskP (f : String → String) (b : Board) (rc : Nat × Nat) : Board :=
  mapCellTask f b rc.1 rc.2

/-- The `mapCards` bulk transform (source lines 389-411): run the
per-cell task over every cell in row-major order, then notify the
watchers once.  The async callback `f` is embedded as a pure function;
in this sequential embedding each task computes and writes back
immediately, and delayed write-backs are modelled by the separate
`Step.mapWrite` interleaving step. -/
def mapCards (b : Board) (f : String → String) : Board × List Event :=
  let b1 := (allCells b.rows b.cols).foldl (mapCellTaskP f) b
  notifyWatchers b1

/-- The `watch` registration (source lines 430-434): append a fresh
watcher token; the promise resolves when a later notification fires. -/
def watch (b : Board) (w : Nat) : Board :=
  { b with watchers := b.watchers ++ [w] }

/-- Display line for one cell (source lines 333-342). -/
def cellDisplay (b : Board) (p : String) (r c : Nat) : String :=
  match b.cards r c with
  | none => "none" ++ "\n"
  | some card =>
    if b.faceUp r c = false then "down" ++ "\n"
    else if b.control r c = some p then "my " ++ card ++ "\n"
    else "up " ++ card ++ "\n"

/-- The `toDisplayString` view (source lines 329-346): size header line
followed by one line per cell in row-major order. -/
def toDisplayString (b : Board) (p : String) : String :=
  (Nat.repr b.rows ++ "x" ++ Nat.repr b.cols ++ "\n") ++
    String.join ((allCells b.rows b.cols).map fun rc => cellDisplay b p rc.1 rc.2)

/-- Iterated `releaseControl` on one cell: the events of `n` successive
releases, used to state FIFO fairness of the wait queue. -/
def releaseN (b : Board) (row col : Nat) : Nat → Board × List Event
  | 0 => (b, [])
  | n + 1 =>
    let rel := releaseControl b row col
    let rest := releaseN rel.1 row col n
    (rest.1, rel.2 ++ rest.2)

/-- Interleaving steps of the cooperative scheduler: a `flipCard` call
(which may block), the post-wait continuation of a woken waiter, a full
`mapCards`, a delayed `mapCards` write-back (the task resuming after its
`await f(card)`), and a `watch` registration. -/
inductive Step where
  | flip (p : String) (row col : Nat)
  | resume (p : String) (row col : Nat)
  | mapAll (f : String → String)
  | mapWrite (row col : Nat) (v : String)
  | watchReg (w : Nat)

/-- Apply one interleaving step to the board. -/
def applyStep (b : Board) : Step → Board
  | Step.flip p row col => (flipCard b p row col).board
  | Step.resume p row col => (flipAfterWait b p row col).board
  | Step.mapAll f => (mapCards b f).1
  | Step.mapWrite row col v => mapCellWrite b row col v
  | Step.watchReg w => watch b w

/-- Apply a sequence of interleaving steps. -/
def applySteps (l : List Step) (b : Board) : Board :=
  l.foldl applyStep b

/-- The three cell invariants of the data model for one cell: a removed
card is face down, a removed card is uncontrolled, and a controlled card
exists and is face up. -/
def cellInv (b : Board) (r c : Nat) : Prop :=
  (b.cards r c = none → b.faceUp r c = false) ∧
  (b.cards r c = none → b.control r c = none) ∧
  (b.control r c ≠ none → b.cards r c ≠ none ∧ b.faceUp r c = true)

/-- The cell invariants, over all cells. -/
def boardInv (b : Board) : Prop :=
  ∀ r c, cellInv b r c

/-- Condition for a player session holding no pick at all. -/
def secondNone (b : Board) : Prop :=
  ∀ q, (b.playerState q).second = none

/-- Evaluation of a pointwise update. -/
theorem upd2_eval {α : Type} (f : Nat → Nat → α) (r c r1 c1 : Nat) (v : α) :
    upd2 f r c v r1 c1 = if r1 = r ∧ c1 = c then v else f r1 c1 := rfl


/-- The update hits the updated cell. -/
theorem upd2_self {α : Type} (f : Nat → Nat → α) (r c : Nat) (v : α) :
    upd2 f r c v r c = v := by
  simp [upd2]

/-- The update misses every other cell. -/
theorem upd2_other {α : Type} (f : Nat → Nat → α) {r c r1 c1 : Nat} (v : α)
    (h : ¬(r1 = r ∧ c1 = c)) : upd2 f r c v r1 c1 = f r1 c1 := by
  simp [upd2, h]


/-- The three cell invariants stated on raw grid functions; `boardInv`
of any record update unfolds definitionally to this. -/
def gridInv (cs : Nat → Nat → Option String) (fu : Nat → Nat → Bool)
    (ct : Nat → Nat → Option String) : Prop :=
  ∀ r c, (cs r c = none → fu r c = false) ∧ (cs r c = none → ct r c = none) ∧
    (ct r c ≠ none → cs r c ≠ none ∧ fu r c = true)

/-- The board invariant is the grid invariant of its three grid
fields. -/
theorem boardInv_iff_gridInv (b : Board) :
    boardInv b ↔ gridInv b.cards b.faceUp b.control :=
  Iff.rfl

/-- Clearing a whole cell (3A removal shape) preserves the grid
invariants. -/
theorem gridInv_remove {cs fu ct} (h : gridInv cs fu ct) (r c : Nat) :
    gridInv (upd2 cs r c none) (upd2 fu r c false) (upd2 ct r c none) := by
  intro r1 c1
  by_cases hrc : r1 = r ∧ c1 = c
  · rcases hrc with ⟨hr1, hc1⟩
    subst hr1; subst hc1
    rw [upd2_self, upd2_self, upd2_self]
    exact ⟨fun _ => rfl, fun _ => rfl, fun hcn => absurd rfl hcn⟩
  · rw [upd2_other _ _ hrc, upd2_other _ _ hrc, upd2_other _ _ hrc]
    exact h r1 c1

/-- Flipping an uncontrolled cell face down (3B shape) preserves the
grid invariants. -/
theorem gridInv_facedown {cs fu ct} (h : gridInv cs fu ct) {r c : Nat}
    (hctrl : ct r c = none) :
    gridInv cs (upd2 fu r c false) ct := by
  intro r1 c1
  by_cases hrc : r1 = r ∧ c1 = c
  · rcases hrc with ⟨hr1, hc1⟩
    subst hr1; subst hc1
    rw [upd2_self]
    exact ⟨fun _ => rfl, (h r1 c1).2.1, fun hcn => absurd hctrl hcn⟩
  · rw [upd2_other _ _ hrc]
    exact h r1 c1

/-- Acquiring a present card (first-pick and 2C shape) preserves the
grid invariants. -/
theorem gridInv_acquire {cs fu ct} (h : gridInv cs fu ct) {r c : Nat}
    {card : String} (hcard : cs r c = some card) (p : String) :
    gridInv cs (upd2 fu r c true) (upd2 ct r c (some p)) := by
  intro r1 c1
  by_cases hrc : r1 = r ∧ c1 = c
  · rcases hrc with ⟨hr1, hc1⟩
    subst hr1; subst hc1
    rw [upd2_self, upd2_self, hcard]
    exact ⟨fun hn => Option.noConfusion hn, fun hn => Option.noConfusion hn,
      fun _ => ⟨fun hn => Option.noConfusion hn, rfl⟩⟩
  · rw [upd2_other _ _ hrc, upd2_other _ _ hrc]
    exact h r1 c1

/-- Clearing one controller (release shape of 2A/2B) preserves the grid
invariants. -/
theorem gridInv_release_one {cs fu ct} (h : gridInv cs fu ct) (r c : Nat) :
    gridInv cs fu (upd2 ct r c none) := by
  intro r1 c1
  by_cases hrc : r1 = r ∧ c1 = c
  · rcases hrc with ⟨hr1, hc1⟩
    subst hr1; subst hc1
    rw [upd2_self]
    exact ⟨(h r1 c1).1, fun _ => rfl, fun hcn => absurd rfl hcn⟩
  · rw [upd2_other _ _ hrc]
    exact h r1 c1

/-- Clearing two controllers (mismatch shape of 2E) preserves the grid
invariants. -/
theorem gridInv_release_two {cs fu ct} (h : gridInv cs fu ct)
    (r1 c1 r2 c2 : Nat) :
    gridInv cs fu (upd2 (upd2 ct r1 c1 none) r2 c2 none) :=
  gridInv_release_one (gridInv_release_one h r1 c1) r2 c2

/-- The optimistic per-cell write of `mapCards` preserves the grid
invariants. -/
theorem gridInv_write {cs fu ct} (h : gridInv cs fu ct) {r c : Nat}
    (hcard : cs r c ≠ none) (v : String) :
    gridInv (upd2 cs r c (some v)) fu ct := by
  intro r1 c1
  by_cases hrc : r1 = r ∧ c1 = c
  · rcases hrc with ⟨hr1, hc1⟩
    subst hr1; subst hc1
    rw [upd2_self]
    exact ⟨fun hn => Option.noConfusion hn, fun hn => Option.noConfusion hn,
      fun hcn => ⟨fun hn => Option.noConfusion hn, ((h r1 c1).2.2 hcn).2⟩⟩
  · rw [upd2_other _ _ hrc]
    exact h r1 c1

/-- The per-cell write preserves the board invariants. -/
theorem inv_mapCellWrite {b : Board} (h : boardInv b) (r c : Nat) (v : String) :
    boardInv (mapCellWrite b r c v) := by
  unfold mapCellWrite
  split
  · next hcard => exact gridInv_write h hcard v
  · exact h

/-- Releasing a wait-queue entry does not touch the grid, hence
preserves the invariants. -/
theorem inv_releaseControl {b : Board} (h : boardInv b) (r c : Nat) :
    boardInv (releaseControl b r c).1 := by
  unfold releaseControl
  split
  · exact h
  · exact h

/-- Notifying watchers does not touch the grid. -/
theorem inv_notifyWatchers {b : Board} (h : boardInv b) :
    boardInv (notifyWatchers b).1 := h

/-- One 3A loop iteration preserves the invariants. -/
theorem inv_cleanup3AStep {acc : Board × List Event} (h : boardInv acc.1)
    (pos : Pick) : boardInv (cleanup3AStep acc pos).1 := by
  simp only [cleanup3AStep]
  split
  · refine inv_releaseControl ?_ pos.row pos.col
    exact gridInv_remove h pos.row pos.col
  · exact h

/-- The 3A loop preserves the invariants. -/
theorem inv_cleanup3AFold (posl : List Pick) :
    ∀ acc : Board × List Event, boardInv acc.1 →
      boardInv (posl.foldl cleanup3AStep acc).1 := by
  induction posl with
  | nil => exact fun _ h => h
  | cons pos rest ih =>
    intro acc h
    exact ih _ (inv_cleanup3AStep h pos)

/-- Rule 3A preserves the invariants. -/
theorem inv_cleanup3A {b : Board} (h : boardInv b) (p : String) :
    boardInv (cleanup3A b p).1 := by
  unfold cleanup3A
  split
  · exact h
  · exact inv_notifyWatchers (inv_cleanup3AFold _ (b, []) h)

/-- One 3B loop iteration preserves the invariants. -/
theorem inv_cleanup3BStep {acc : Board × Bool} (h : boardInv acc.1)
    (pos : Pick) : boardInv (cleanup3BStep acc pos).1 := by
  simp only [cleanup3BStep]
  split
  · next hcond => exact gridInv_facedown h hcond.2.1
  · exact h

/-- The 3B loop preserves the invariants. -/
theorem inv_cleanup3BFold (posl : List Pick) :
    ∀ acc : Board × Bool, boardInv acc.1 →
      boardInv (posl.foldl cleanup3BStep acc).1 := by
  induction posl with
  | nil => exact fun _ h => h
  | cons pos rest ih =>
    intro acc h
    exact ih _ (inv_cleanup3BStep h pos)

/-- Rule 3B preserves the invariants. -/
theorem inv_cleanup3B {b : Board} (h : boardInv b) (p : String) :
    boardInv (cleanup3B b p).1 := by
  simp only [cleanup3B]
  split
  · exact h
  · split
    · exact inv_notifyWatchers (inv_cleanup3BFold _ (b, false) h)
    · exact inv_cleanup3BFold _ (b, false) h

/-- The deferred-cleanup phase preserves the invariants. -/
theorem inv_cleanupStep {b : Board} (h : boardInv b) (p : String) :
    boardInv (cleanupStep b p).1 := by
  unfold cleanupStep
  split
  · exact inv_cleanup3B (inv_cleanup3A h p) p
  · exact h

/-- The first/second-pick resolution preserves the invariants. -/
theorem inv_flipAfterWait {b : Board} (h : boardInv b) (p : String)
    (row col : Nat) : boardInv (flipAfterWait b p row col).board := by
  simp only [flipAfterWait]
  split
  · -- first pick
    split
    · exact h
    · next card hcd =>
      split
      · exact h
      · refine inv_notifyWatchers ?_
        exact gridInv_acquire h hcd p
  · -- second pick
    next fp hfp =>
    split
    · exact h
    · split
      · exact h
      · split
        · -- 2A
          have h1 : boardInv
              { b with control := upd2 b.control fp.row fp.col none } :=
            gridInv_release_one h fp.row fp.col
          exact inv_notifyWatchers (inv_releaseControl h1 fp.row fp.col)
        · next card2 hcd =>
          split
          · -- 2B
            have h1 : boardInv
                { b with control := upd2 b.control fp.row fp.col none } :=
              gridInv_release_one h fp.row fp.col
            exact inv_notifyWatchers (inv_releaseControl h1 fp.row fp.col)
          · -- 2C then match or mismatch
            have h1 : boardInv { b with
                faceUp := upd2 b.faceUp row col true
                control := upd2 b.control row col (some p)
                playerState := updS b.playerState p
                  { b.playerState p with second := some ⟨row, col, card2⟩ } } :=
              gridInv_acquire h hcd p
            have h2 := inv_notifyWatchers h1
            split
            · exact inv_notifyWatchers h2
            · have h3 : boardInv { (notifyWatchers { b with
                  faceUp := upd2 b.faceUp row col true
                  control := upd2 b.control row col (some p)
                  playerState := updS b.playerState p
                    { b.playerState p with second := some ⟨row, col, card2⟩ } }).1 with
                  control := upd2 (upd2 (notifyWatchers { b with
                    faceUp := upd2 b.faceUp row col true
                    control := upd2 b.control row col (some p)
                    playerState := updS b.playerState p
                      { b.playerState p with
                        second := some ⟨row, col, card2⟩ } }).1.control
                    fp.row fp.col none) row col none } :=
                gridInv_release_two h2 fp.row fp.col row col
              exact inv_notifyWatchers
                (inv_releaseControl (inv_releaseControl h3 fp.row fp.col) row col)

/-- The whole `flipCard` call preserves the invariants, whatever its
outcome. -/
theorem inv_flipCard {b : Board} (h : boardInv b) (p : String)
    (row col : Nat) : boardInv (flipCard b p row col).board := by
  simp only [flipCard]
  split
  · split
    · split
      · exact inv_cleanupStep h p
      · exact inv_flipAfterWait (inv_cleanupStep h p) p row col
    · exact h
  · exact h

/-- One per-cell transform task preserves the invariants. -/
theorem inv_mapCellTask {b : Board} (h : boardInv b) (f : String → String)
    (r c : Nat) : boardInv (mapCellTask f b r c) := by
  unfold mapCellTask
  split
  · exact h
  · exact inv_mapCellWrite h r c _

/-- The transform loop preserves the invariants. -/
theorem inv_mapFold (f : String → String) (l : List (Nat × Nat)) :
    ∀ b : Board, boardInv b → boardInv (l.foldl (mapCellTaskP f) b) := by
  induction l with
  | nil => exact fun _ h => h
  | cons rc rest ih =>
    intro b h
    exact ih _ (inv_mapCellTask h f rc.1 rc.2)

/-- The whole `mapCards` transform preserves the invariants. -/
theorem inv_mapCards {b : Board} (h : boardInv b) (f : String → String) :
    boardInv (mapCards b f).1 := by
  simp only [mapCards]
  exact inv_notifyWatchers (inv_mapFold f _ b h)

/-- Registering a watcher preserves the invariants. -/
theorem inv_watch {b : Board} (h : boardInv b) (w : Nat) :
    boardInv (watch b w) := h

/-- Every interleaving step preserves the invariants. -/
theorem inv_applyStep {b : Board} (h : boardInv b) (s : Step) :
    boardInv (applyStep b s) := by
  cases s with
  | flip p row col => exact inv_flipCard h p row col
  | resume p row col => exact inv_flipAfterWait h p row col
  | mapAll f => exact inv_mapCards h f
  | mapWrite row col v => exact inv_mapCellWrite h row col v
  | watchReg w => exact inv_watch h w

/-- Step sequences preserve the invariants. -/
theorem inv_applySteps (steps : List Step) :
    ∀ b : Board, boardInv b → boardInv (applySteps steps b) := by
  induction steps with
  | nil => exact fun _ h => h
  | cons s rest ih =>
    intro b h
    exact ih _ (inv_applyStep h s)

/-- A freshly constructed board satisfies the invariants. -/
theorem inv_mkBoard (rows cols : Nat) (init : List (List String)) :
    boardInv (mkBoard rows cols init) := by
  intro r c
  exact ⟨fun _ => rfl, fun _ => rfl, fun hcn => absurd rfl hcn⟩

/-- C1: for every board produced by the constructor and every finite
sequence of completed or interleaved flipCard and mapCards operation
steps (successful, failing or suspending), every cell of the resulting
board satisfies the three cell invariants: a removed card is face down,
a removed card is uncontrolled, and a controlled card exists and is
face up. -/
theorem flip_map_sequences_preserve_cellInv (rows cols : Nat)
    (init : List (List String)) (steps : List Step) (r c : Nat) :
    cellInv (applySteps steps (mkBoard rows cols init)) r c :=
  inv_applySteps steps (mkBoard rows cols init) (inv_mkBoard rows cols init) r c

/-- Witness for C1 at a concrete board and step sequence: after a first
pick the picked cell is controlled, so the invariant instance yields
that its card exists and is face up. -/
theorem flip_map_sequences_preserve_cellInv_witness :
    (applySteps [Step.flip "p1" 0 0]
        (mkBoard 2 2 [["A", "A"], ["B", "B"]])).cards 0 0 ≠ none ∧
      (applySteps [Step.flip "p1" 0 0]
        (mkBoard 2 2 [["A", "A"], ["B", "B"]])).faceUp 0 0 = true :=
  (flip_map_sequences_preserve_cellInv 2 2 [["A", "A"], ["B", "B"]]
    [Step.flip "p1" 0 0] 0 0).2.2 (by decide)

/-- Popping a waiter does not change the session map. -/
theorem releaseControl_playerState (b : Board) (r c : Nat) :
    (releaseControl b r c).1.playerState = b.playerState := by
  unfold releaseControl
  split <;> rfl

/-- The 3A loop body does not change the session map. -/
theorem cleanup3AStep_playerState (acc : Board × List Event) (pos : Pick) :
    (cleanup3AStep acc pos).1.playerState = acc.1.playerState := by
  simp only [cleanup3AStep]
  split
  · rw [releaseControl_playerState]
  · rfl

/-- The 3A loop does not change the session map. -/
theorem cleanup3AFold_playerState (posl : List Pick) :
    ∀ acc : Board × List Event,
      (posl.foldl cleanup3AStep acc).1.playerState = acc.1.playerState := by
  induction posl with
  | nil => exact fun _ => rfl
  | cons pos rest ih =>
    intro acc
    exact (ih _).trans (cleanup3AStep_playerState acc pos)

/-- The 3B loop body does not change the session map. -/
theorem cleanup3BStep_playerState (acc : Board × Bool) (pos : Pick) :
    (cleanup3BStep acc pos).1.playerState = acc.1.playerState := by
  simp only [cleanup3BStep]
  split <;> rfl

/-- The 3B loop does not change the session map. -/
theorem cleanup3BFold_playerState (posl : List Pick) :
    ∀ acc : Board × Bool,
      (posl.foldl cleanup3BStep acc).1.playerState = acc.1.playerState := by
  induction posl with
  | nil => exact fun _ => rfl
  | cons pos rest ih =>
    intro acc
    exact (ih _).trans (cleanup3BStep_playerState acc pos)

/-- A session-map update whose new session holds no second pick keeps
the no-second-pick property, provided all other players already have
it. -/
theorem secondNone_updS {ps : String → Session} {p : String} {s : Session}
    (h : ∀ q, q ≠ p → (ps q).second = none) (hs : s.second = none) :
    ∀ q, ((updS ps p s) q).second = none := by
  intro q
  unfold updS
  split
  · exact hs
  · next hq => exact h q hq

/-- Rule 3A keeps every session free of a second pick. -/
theorem sn_cleanup3A {b : Board} (h : secondNone b) (p : String) :
    secondNone (cleanup3A b p).1 := by
  unfold cleanup3A
  split
  · exact h
  · next posl _ =>
    intro q
    have hfold := cleanup3AFold_playerState posl (b, [])
    refine secondNone_updS (fun q1 _ => ?_) ?_ q
    · rw [hfold]; exact h q1
    · show ((_ : Board).playerState p).second = none
      rw [hfold]; exact h p

/-- Rule 3B keeps every session free of a second pick. -/
theorem sn_cleanup3B {b : Board} (h : secondNone b) (p : String) :
    secondNone (cleanup3B b p).1 := by
  simp only [cleanup3B]
  split
  · exact h
  · next posl _ =>
    have hfold := cleanup3BFold_playerState posl (b, false)
    have hcore : ∀ q, ((updS (List.foldl cleanup3BStep (b, false) posl).1.playerState p
        { (List.foldl cleanup3BStep (b, false) posl).1.playerState p with
          lastMismatch := none }) q).second = none := by
      refine secondNone_updS (fun q1 _ => ?_) ?_
      · rw [hfold]; exact h q1
      · show ((_ : Board).playerState p).second = none
        rw [hfold]; exact h p
    split
    · exact hcore
    · exact hcore

/-- The deferred-cleanup phase keeps every session free of a second
pick. -/
theorem sn_cleanupStep {b : Board} (h : secondNone b) (p : String) :
    secondNone (cleanupStep b p).1 := by
  unfold cleanupStep
  split
  · exact sn_cleanup3B (sn_cleanup3A h p) p
  · exact h

/-- The pick resolution keeps every session free of a second pick: the
second pick recorded at 2C is cleared in the same step. -/
theorem sn_flipAfterWait {b : Board} (h : secondNone b) (p : String)
    (row col : Nat) : secondNone (flipAfterWait b p row col).board := by
  simp only [flipAfterWait]
  split
  · -- first pick
    split
    · exact h
    · split
      · exact h
      · exact secondNone_updS (fun q hq => h q) (h p)
  · -- second pick
    split
    · exact h
    · split
      · exact h
      · split
        · -- 2A
          intro q
          refine secondNone_updS (fun q1 _ => ?_) ?_ q
          · rw [releaseControl_playerState]; exact h q1
          · exact h p
        · split
          · -- 2B
            intro q
            refine secondNone_updS (fun q1 _ => ?_) ?_ q
            · rw [releaseControl_playerState]; exact h q1
            · exact h p
          · -- 2C then match or mismatch
            split
            · -- match: final session stores no second pick
              intro q
              refine secondNone_updS (fun q1 hq1 => ?_) rfl q
              show ((updS b.playerState p _) q1).second = none
              rw [updS, if_neg hq1]
              exact h q1
            · -- mismatch: final session stores no second pick
              intro q
              refine secondNone_updS (fun q1 hq1 => ?_) rfl q
              rw [releaseControl_playerState, releaseControl_playerState]
              show ((updS b.playerState p _) q1).second = none
              rw [updS, if_neg hq1]
              exact h q1

/-- The whole `flipCard` call keeps every session free of a second
pick. -/
theorem sn_flipCard {b : Board} (h : secondNone b) (p : String)
    (row col : Nat) : secondNone (flipCard b p row col).board := by
  simp only [flipCard]
  split
  · split
    · split
      · exact sn_cleanupStep h p
      · exact sn_flipAfterWait (sn_cleanupStep h p) p row col
    · exact h
  · exact h

/-- The per-cell transform task does not change the session map. -/
theorem mapCellTask_playerState (f : String → String) (b : Board)
    (r c : Nat) : (mapCellTask f b r c).playerState = b.playerState := by
  unfold mapCellTask mapCellWrite
  split
  · rfl
  · split <;> rfl

/-- The transform loop does not change the session map. -/
theorem mapFold_playerState (f : String → String) (l : List (Nat × Nat)) :
    ∀ b : Board, (l.foldl (mapCellTaskP f) b).playerState = b.playerState := by
  induction l with
  | nil => exact fun _ => rfl
  | cons rc rest ih =>
    intro b
    exact (ih _).trans (mapCellTask_playerState f b rc.1 rc.2)

/-- The bulk transform keeps every session free of a second pick. -/
theorem sn_mapCards {b : Board} (h : secondNone b) (f : String → String) :
    secondNone (mapCards b f).1 := by
  intro q
  show ((mapCards b f).1.playerState q).second = none
  simp only [mapCards, notifyWatchers]
  rw [show ({ (allCells b.rows b.cols).foldl (mapCellTaskP f) b with
      watchers := [] } : Board).playerState
      = ((allCells b.rows b.cols).foldl (mapCellTaskP f) b).playerState from rfl]
  rw [mapFold_playerState]
  exact h q

/-- Every interleaving step keeps every session free of a second
pick. -/
theorem sn_applyStep {b : Board} (h : secondNone b) (s : Step) :
    secondNone (applyStep b s) := by
  cases s with
  | flip p row col => exact sn_flipCard h p row col
  | resume p row col => exact sn_flipAfterWait h p row col
  | mapAll f => exact sn_mapCards h f
  | mapWrite row col v =>
    intro q
    show ((mapCellWrite b row col v).playerState q).second = none
    unfold mapCellWrite
    split
    · exact h q
    · exact h q
  | watchReg w => exact h

/-- Step sequences keep every session free of a second pick. -/
theorem sn_applySteps (steps : List Step) :
    ∀ b : Board, secondNone b → secondNone (applySteps steps b) := by
  induction steps with
  | nil => exact fun _ h => h
  | cons s rest ih =>
    intro b h
    exact ih _ (sn_applyStep h s)

/-- A fresh board has only empty sessions. -/
theorem sn_mkBoard (rows cols : Nat) (init : List (List String)) :
    secondNone (mkBoard rows cols init) :=
  fun _ => rfl

/-- Under the no-second-pick property, the pick resolution never
reaches the third-pick branch. -/
theorem flipAfterWait_no_protocol {b : Board} (h : secondNone b)
    (p : String) (row col : Nat) :
    (flipAfterWait b p row col).outcome ≠ FlipOutcome.protocolViolation := by
  simp only [flipAfterWait, h p]
  split
  · split
    · simp
    · split <;> simp
  · split
    · simp
    · split
      · simp
      · split
        · simp
        · split <;> simp

/-- Under the no-second-pick property, `flipCard` never fails with the
third-pick protocol violation. -/
theorem flipCard_no_protocol {b : Board} (h : secondNone b)
    (p : String) (row col : Nat) :
    (flipCard b p row col).outcome ≠ FlipOutcome.protocolViolation := by
  simp only [flipCard]
  split
  · split
    · split
      · simp
      · exact flipAfterWait_no_protocol (sn_cleanupStep h p) p row col
    · simp
  · simp

/-- C9: in every state reachable by interleaved operation steps from a
constructed board, every player session has its second field unset, and
consequently a `flipCard` call (or a woken continuation) never reaches
the third-pick branch that throws the protocol violation. -/
theorem third_pick_branch_unreachable (rows cols : Nat)
    (init : List (List String)) (steps : List Step) (p : String)
    (row col : Nat) :
    ((applySteps steps (mkBoard rows cols init)).playerState p).second = none ∧
      (flipCard (applySteps steps (mkBoard rows cols init)) p row col).outcome ≠
        FlipOutcome.protocolViolation ∧
      (flipAfterWait (applySteps steps (mkBoard rows cols init)) p row
          col).outcome ≠ FlipOutcome.protocolViolation := by
  have hsn : secondNone (applySteps steps (mkBoard rows cols init)) :=
    sn_applySteps steps (mkBoard rows cols init) (sn_mkBoard rows cols init)
  exact ⟨hsn p, flipCard_no_protocol hsn p row col,
    flipAfterWait_no_protocol hsn p row col⟩

/-- Witness for C9 at a concrete board, step sequence and call. -/
theorem third_pick_branch_unreachable_witness :
    ((applySteps [Step.flip "p1" 0 0]
        (mkBoard 2 2 [["A", "A"], ["B", "B"]])).playerState "p1").second =
        none ∧
      (flipCard (applySteps [Step.flip "p1" 0 0]
          (mkBoard 2 2 [["A", "A"], ["B", "B"]])) "p1" 0 1).outcome ≠
        FlipOutcome.protocolViolation ∧
      (flipAfterWait (applySteps [Step.flip "p1" 0 0]
          (mkBoard 2 2 [["A", "A"], ["B", "B"]])) "p1" 0 1).outcome ≠
        FlipOutcome.protocolViolation :=
  third_pick_branch_unreachable 2 2 [["A", "A"], ["B", "B"]]
    [Step.flip "p1" 0 0] "p1" 0 1

/-- The 2x2 demonstration board with cards A A / B B. -/
def demoBoard : Board :=
  mkBoard 2 2 [["A", "A"], ["B", "B"]]

/-- Demo board after p1 flips (0,0). -/
def demoAfter1 : Board :=
  (flipCard demoBoard "p1" 0 0).board

/-- Demo board after p1 flips (0,0) then (0,1). -/
def demoAfter2 : Board :=
  (flipCard demoAfter1 "p1" 0 1).board

/-- Demo board after p1 flips (0,0), (0,1) and then (1,0). -/
def demoAfter3 : Board :=
  (flipCard demoAfter2 "p1" 1 0).board

/-- C6: on the fresh 2x2 board [[A,A],[B,B]], after p1 flips (0,0) and
(0,1) both cells display as `my A` in p1's view; the next flip at (1,0)
removes the matched pair, leaving (0,0) and (0,1) with no content. -/
theorem match_commit_scenario :
    (flipCard demoBoard "p1" 0 0).outcome = FlipOutcome.ok ∧
      (flipCard demoAfter1 "p1" 0 1).outcome = FlipOutcome.ok ∧
      toDisplayString demoAfter2 "p1" =
        "2x2\nmy A\nmy A\ndown\ndown\n" ∧
      (flipCard demoAfter2 "p1" 1 0).outcome = FlipOutcome.ok ∧
      demoAfter3.cards 0 0 = none ∧ demoAfter3.cards 0 1 = none := by
  refine ⟨by decide, by decide, by decide, by decide, by decide, by decide⟩

/-- C8: when an actor holds exactly a first pick and flips exactly that
pick's (in-bounds) position again, the call returns successfully and
performs no mutation and no notification at all: the resulting board is
the input board and the event list is empty. -/
theorem double_click_is_noop (b : Board) (p : String) (fp : Pick)
    (hrep : checkRepB b = true)
    (hfirst : (b.playerState p).first = some fp)
    (hsecond : (b.playerState p).second = none)
    (hr : fp.row < b.rows) (hc : fp.col < b.cols) :
    flipCard b p fp.row fp.col = ⟨FlipOutcome.ok, b, []⟩ := by
  simp [flipCard, cleanupStep, flipAfterWait, hrep, hfirst, hsecond, hr, hc]

/-- Witness for C8: on the demo board after p1 picked (0,0), flipping
(0,0) again changes nothing. -/
theorem double_click_is_noop_witness :
    flipCard demoAfter1 "p1" 0 0 = ⟨FlipOutcome.ok, demoAfter1, []⟩ :=
  double_click_is_noop demoAfter1 "p1" ⟨0, 0, "A"⟩ (by decide) (by decide)
    (by decide) (by decide) (by decide)

/-- Popping a waiter does not change the control matrix. -/
theorem releaseControl_control (b : Board) (r c : Nat) :
    (releaseControl b r c).1.control = b.control := by
  unfold releaseControl
  split <;> rfl

/-- Popping a waiter does not change the watcher registry. -/
theorem releaseControl_watchers (b : Board) (r c : Nat) :
    (releaseControl b r c).1.watchers = b.watchers := by
  unfold releaseControl
  split <;> rfl

/-- The events of one release are the first queue entry, if any. -/
theorem releaseControl_events (b : Board) (r c : Nat) :
    (releaseControl b r c).2 = ((b.waiting r c).take 1).map Event.wake := by
  unfold releaseControl
  split
  · next hq => rw [hq]; rfl
  · next w rest hq => rw [hq]; rfl

/-- One release removes exactly the head of the cell queue. -/
theorem releaseControl_waiting_self (b : Board) (r c : Nat) :
    (releaseControl b r c).1.waiting r c = (b.waiting r c).drop 1 := by
  unfold releaseControl
  split
  · next hq => rw [hq]; rfl
  · next w rest hq => show upd2 b.waiting r c rest r c = _; rw [upd2_self, hq]; rfl

/-- C2: an actor holding exactly a first pick (whose cell it controls)
that flips an in-bounds cell holding a card controlled by a different
actor fails with CardAlreadyControlled without suspending: before
failing it clears the first pick's controller, pops (and wakes) at most
one queued waiter of the first pick's cell, records the first pick
alone as the pending mismatch, clears the session's first field, and
notifies every registered watcher. -/
theorem second_pick_contended_fails_fast (b : Board) (p q : String)
    (fp : Pick) (row col : Nat) (cd : String)
    (hrep : checkRepB b = true)
    (hfirst : (b.playerState p).first = some fp)
    (hsecond : (b.playerState p).second = none)
    (hself : b.control fp.row fp.col = some p)
    (hr : row < b.rows) (hc : col < b.cols)
    (hcard : b.cards row col = some cd)
    (hctrl : b.control row col = some q)
    (hqp : q ≠ p) (hqe : q ≠ "") :
    (flipCard b p row col).outcome = FlipOutcome.alreadyControlled ∧
      (flipCard b p row col).board.control fp.row fp.col = none ∧
      (flipCard b p row col).board.waiting fp.row fp.col =
        (b.waiting fp.row fp.col).drop 1 ∧
      ((flipCard b p row col).board.playerState p).first = none ∧
      ((flipCard b p row col).board.playerState p).lastMismatch = some [fp] ∧
      (flipCard b p row col).events =
        ((b.waiting fp.row fp.col).take 1).map Event.wake ++
          [Event.notify b.watchers] ∧
      (flipCard b p row col).board.watchers = [] := by
  have hne : ¬(row = fp.row ∧ col = fp.col) := by
    rintro ⟨h1, h2⟩
    subst h1; subst h2
    rw [hself] at hctrl
    exact hqp (Option.some.inj hctrl.symm)
  have hkey : flipCard b p row col =
      (let b1 : Board := { b with control := upd2 b.control fp.row fp.col none }
       let rel := releaseControl b1 fp.row fp.col
       let b2 : Board := { rel.1 with
         playerState := updS rel.1.playerState p
           { b.playerState p with lastMismatch := some [fp], first := none } }
       ⟨FlipOutcome.alreadyControlled, (notifyWatchers b2).1,
         rel.2 ++ (notifyWatchers b2).2⟩) := by
    simp [flipCard, cleanupStep, flipAfterWait, hrep, hfirst, hsecond, hr, hc,
      hcard, hctrl, hne, truthy, hqe, hqp]
  rw [hkey]
  refine ⟨rfl, ?_, ?_, ?_, ?_, ?_, ?_⟩
  · show (releaseControl _ fp.row fp.col).1.control fp.row fp.col = none
    rw [releaseControl_control]
    exact upd2_self _ _ _ _
  · show (releaseControl _ fp.row fp.col).1.waiting fp.row fp.col = _
    rw [releaseControl_waiting_self]
  · show ((updS (releaseControl _ fp.row fp.col).1.playerState p _) p).first = none
    rw [updS, if_pos rfl]
  · show ((updS (releaseControl _ fp.row fp.col).1.playerState p _) p).lastMismatch
      = some [fp]
    rw [updS, if_pos rfl]
  · show (releaseControl _ fp.row fp.col).2 ++ [Event.notify _] = _
    rw [releaseControl_events, releaseControl_watchers]
  · rfl

/-- Demo board after p1 picked (0,0) and p2 picked (1,0). -/
def c2Board : Board :=
  (flipCard demoAfter1 "p2" 1 0).board

/-- Witness for C2: on the demo board where p1 holds (0,0) and p2 holds
(1,0), p1's second pick at (1,0) fails fast with the documented side
effects. -/
theorem second_pick_contended_fails_fast_witness :
    (flipCard c2Board "p1" 1 0).outcome = FlipOutcome.alreadyControlled ∧
      (flipCard c2Board "p1" 1 0).board.control 0 0 = none ∧
      (flipCard c2Board "p1" 1 0).board.waiting 0 0 =
        (c2Board.waiting 0 0).drop 1 ∧
      ((flipCard c2Board "p1" 1 0).board.playerState "p1").first = none ∧
      ((flipCard c2Board "p1" 1 0).board.playerState "p1").lastMismatch =
        some [⟨0, 0, "A"⟩] ∧
      (flipCard c2Board "p1" 1 0).events =
        ((c2Board.waiting 0 0).take 1).map Event.wake ++
          [Event.notify c2Board.watchers] ∧
      (flipCard c2Board "p1" 1 0).board.watchers = [] :=
  second_pick_contended_fails_fast c2Board "p1" "p2" ⟨0, 0, "A"⟩ 1 0 "B"
    (by decide) (by decide) (by decide) (by decide) (by decide) (by decide)
    (by decide) (by decide) (by decide) (by decide)

/-- The events of iterated releases on one cell are the first `n` queue
entries, in queue order. -/
theorem releaseN_events (r c : Nat) :
    ∀ (n : Nat) (b : Board),
      (releaseN b r c n).2 = ((b.waiting r c).take n).map Event.wake := by
  intro n
  induction n with
  | zero => intro b; simp [releaseN]
  | succ n ih =>
    intro b
    show (releaseControl b r c).2 ++ (releaseN (releaseControl b r c).1 r c n).2
      = _
    rw [ih, releaseControl_waiting_self, releaseControl_events]
    cases hq : b.waiting r c with
    | nil => simp
    | cons w t => simp

/-- C7: a release on a cell wakes at most one waiter, namely the head
of its FIFO queue, removing it; consequently over iterated releases the
waiter at queue index i is woken at wake position i, so a waiter that
enqueued before another (i < j) is woken strictly earlier. -/
theorem release_wakes_fifo (b : Board) (row col : Nat) (i j n : Nat)
    (hij : i < j) (_hj : j < (b.waiting row col).length) :
    (releaseControl b row col).2 =
      ((b.waiting row col).take 1).map Event.wake ∧
      (releaseControl b row col).1.waiting row col =
        (b.waiting row col).drop 1 ∧
      (releaseN b row col n).2 =
        ((b.waiting row col).take n).map Event.wake ∧
      (releaseN b row col (j + 1)).2[i]? =
        ((b.waiting row col)[i]?).map Event.wake ∧
      (releaseN b row col (j + 1)).2[j]? =
        ((b.waiting row col)[j]?).map Event.wake := by
  refine ⟨releaseControl_events b row col, releaseControl_waiting_self b row col,
    releaseN_events row col n b, ?_, ?_⟩
  · rw [releaseN_events, List.getElem?_map,
      List.getElem?_take_of_lt (Nat.lt_succ_of_lt hij)]
  · rw [releaseN_events, List.getElem?_map,
      List.getElem?_take_of_lt (Nat.lt_succ_self j)]

/-- Demo board where p1 controls (0,0) and p3 then p4 blocked on it,
so the FIFO queue of (0,0) is [p3, p4]. -/
def c7Board : Board :=
  (flipCard (flipCard demoAfter1 "p3" 0 0).board "p4" 0 0).board

/-- Witness for C7 on a concrete board with two waiters queued on cell
(0,0): one release wakes exactly the first. -/
theorem release_wakes_fifo_witness :
    (releaseControl c7Board 0 0).2 =
      ((c7Board.waiting 0 0).take 1).map Event.wake ∧
      (releaseControl c7Board 0 0).1.waiting 0 0 =
        (c7Board.waiting 0 0).drop 1 ∧
      (releaseN c7Board 0 0 1).2 =
        ((c7Board.waiting 0 0).take 1).map Event.wake ∧
      (releaseN c7Board 0 0 2).2[0]? =
        ((c7Board.waiting 0 0)[0]?).map Event.wake ∧
      (releaseN c7Board 0 0 2).2[1]? =
        ((c7Board.waiting 0 0)[1]?).map Event.wake :=
  release_wakes_fifo c7Board 0 0 0 1 1 (by decide) (by decide)

/-- C4: the optimistic write-back of a `mapCards` per-cell task never
writes the transformed value to a cell whose content was removed before
the write: a cell that is `none` at write time keeps content `none`. -/
theorem transform_write_skips_removed (b : Board) (r c : Nat) (v : String)
    (h : b.cards r c = none) : (mapCellWrite b r c v).cards r c = none := by
  unfold mapCellWrite
  rw [if_neg (by simp [h])]
  exact h

/-- Witness for C4: on the demo board after the matched pair was
removed, the write-back leaves the removed cell empty. -/
theorem transform_write_skips_removed_witness :
    demoAfter3.cards 0 0 = none ∧
      (mapCellWrite demoAfter3 0 0 "Z").cards 0 0 = none :=
  ⟨by decide, transform_write_skips_removed demoAfter3 0 0 "Z" (by decide)⟩

/-- A per-cell task maps the content of its own cell through `f`. -/
theorem mapCellTask_cards_self (f : String → String) (b : Board)
    (r c : Nat) : (mapCellTask f b r c).cards r c = (b.cards r c).map f := by
  unfold mapCellTask mapCellWrite
  split
  · next hcd => rw [hcd]; rfl
  · next card hcd =>
    rw [if_pos (by rw [hcd]; exact fun hx => Option.noConfusion hx)]
    show upd2 b.cards r c (some (f card)) r c = _
    rw [upd2_self, hcd]
    rfl

/-- A per-cell task does not touch any other cell. -/
theorem mapCellTask_cards_other (f : String → String) (b : Board)
    {r c r1 c1 : Nat} (h : ¬(r1 = r ∧ c1 = c)) :
    (mapCellTask f b r c).cards r1 c1 = b.cards r1 c1 := by
  unfold mapCellTask mapCellWrite
  split
  · rfl
  · split
    · show upd2 b.cards r c _ r1 c1 = _
      rw [upd2_other _ _ h]
    · rfl

/-- A per-cell task changes no field other than `cards`. -/
theorem mapCellTask_frame (f : String → String) (b : Board) (r c : Nat) :
    (mapCellTask f b r c).rows = b.rows ∧
      (mapCellTask f b r c).cols = b.cols ∧
      (mapCellTask f b r c).faceUp = b.faceUp ∧
      (mapCellTask f b r c).control = b.control ∧
      (mapCellTask f b r c).playerState = b.playerState ∧
      (mapCellTask f b r c).waiting = b.waiting ∧
      (mapCellTask f b r c).watchers = b.watchers := by
  unfold mapCellTask mapCellWrite
  split
  · exact ⟨rfl, rfl, rfl, rfl, rfl, rfl, rfl⟩
  · split
    · exact ⟨rfl, rfl, rfl, rfl, rfl, rfl, rfl⟩
    · exact ⟨rfl, rfl, rfl, rfl, rfl, rfl, rfl⟩

/-- The transform loop changes no field other than `cards`. -/
theorem mapFold_frame (f : String → String) (l : List (Nat × Nat)) :
    ∀ b : Board,
      ((l.foldl (mapCellTaskP f) b).rows = b.rows ∧
        (l.foldl (mapCellTaskP f) b).cols = b.cols ∧
        (l.foldl (mapCellTaskP f) b).faceUp = b.faceUp ∧
        (l.foldl (mapCellTaskP f) b).control = b.control ∧
        (l.foldl (mapCellTaskP f) b).playerState = b.playerState ∧
        (l.foldl (mapCellTaskP f) b).waiting = b.waiting ∧
        (l.foldl (mapCellTaskP f) b).watchers = b.watchers) := by
  induction l with
  | nil => exact fun _ => ⟨rfl, rfl, rfl, rfl, rfl, rfl, rfl⟩
  | cons rc rest ih =>
    intro b
    obtain ⟨i1, i2, i3, i4, i5, i6, i7⟩ := ih (mapCellTaskP f b rc)
    obtain ⟨s1, s2, s3, s4, s5, s6, s7⟩ := mapCellTask_frame f b rc.1 rc.2
    exact ⟨i1.trans s1, i2.trans s2, i3.trans s3, i4.trans s4, i5.trans s5,
      i6.trans s6, i7.trans s7⟩

/-- Cells not visited by the loop keep their content. -/
theorem mapFold_cards_not_mem (f : String → String) (l : List (Nat × Nat))
    {r c : Nat} :
    ∀ b : Board, (r, c) ∉ l →
      (l.foldl (mapCellTaskP f) b).cards r c = b.cards r c := by
  induction l with
  | nil => exact fun _ _ => rfl
  | cons rc rest ih =>
    intro b hmem
    have hne : (r, c) ≠ rc := fun hx => hmem (hx ▸ List.mem_cons_self rc rest)
    have hrest : (r, c) ∉ rest := fun hx => hmem (List.mem_cons_of_mem rc hx)
    have hcoords : ¬(r = rc.1 ∧ c = rc.2) := by
      rintro ⟨h1, h2⟩
      exact hne (by cases rc; simp_all)
    exact (ih _ hrest).trans (mapCellTask_cards_other f b hcoords)

/-- Cells visited exactly once by the loop end with their content
mapped through `f`. -/
theorem mapFold_cards_mem (f : String → String) (l : List (Nat × Nat))
    {r c : Nat} :
    ∀ b : Board, l.Nodup → (r, c) ∈ l →
      (l.foldl (mapCellTaskP f) b).cards r c = (b.cards r c).map f := by
  induction l with
  | nil => exact fun _ _ hx => absurd hx (List.not_mem_nil _)
  | cons rc rest ih =>
    intro b hnd hmem
    rw [List.foldl_cons]
    rcases List.mem_cons.1 hmem with heq | hrest
    · have hnotin : (r, c) ∉ rest := by
        rw [heq]
        exact (List.nodup_cons.1 hnd).1
      rw [mapFold_cards_not_mem f rest _ hnotin]
      subst heq
      exact mapCellTask_cards_self f b r c
    · have hcoords : ¬(r = rc.1 ∧ c = rc.2) := by
        rintro ⟨h1, h2⟩
        have : (r, c) = rc := by cases rc; simp_all
        exact (List.nodup_cons.1 hnd).1 (this ▸ hrest)
      rw [ih _ (List.nodup_cons.1 hnd).2 hrest]
      have hother : (mapCellTaskP f b rc).cards r c = b.cards r c :=
        mapCellTask_cards_other f b hcoords
      rw [hother]

/-- A packed cell address is listed exactly when it is in range. -/
theorem mem_allCells (rows cols r c : Nat) :
    (r, c) ∈ allCells rows cols ↔ r < rows ∧ c < cols := by
  simp [allCells]

/-- The row-major cell list has no duplicates. -/
theorem nodup_allCells (rows cols : Nat) : (allCells rows cols).Nodup := by
  refine List.nodup_flatMap.2 ⟨?_, ?_⟩
  · intro r _
    exact (List.nodup_range cols).map fun c1 c2 h => by simpa using congrArg Prod.snd h
  · refine (List.pairwise_lt_range rows).imp ?_
    intro r1 r2 hlt x hx1 hx2
    rcases List.mem_map.1 hx1 with ⟨c1, _, rfl⟩
    rcases List.mem_map.1 hx2 with ⟨c2, _, hx⟩
    have : r2 = r1 := congrArg Prod.fst hx
    exact absurd (this ▸ hlt) (Nat.lt_irrefl r2)

/-- C10: `mapCards` leaves the dimensions, the face-up matrix, the
control matrix, every player session and every wait queue unchanged,
and its only effect on content is mapping each in-range cell through
`f`: a live cell stays live (with transformed content) and a removed
cell stays removed. -/
theorem mapCards_frame_and_content (b : Board) (f : String → String)
    (r c : Nat) (hr : r < b.rows) (hc : c < b.cols) :
    (mapCards b f).1.rows = b.rows ∧
      (mapCards b f).1.cols = b.cols ∧
      (mapCards b f).1.faceUp = b.faceUp ∧
      (mapCards b f).1.control = b.control ∧
      (mapCards b f).1.playerState = b.playerState ∧
      (mapCards b f).1.waiting = b.waiting ∧
      (mapCards b f).1.cards r c = (b.cards r c).map f := by
  obtain ⟨f1, f2, f3, f4, f5, f6, _⟩ :=
    mapFold_frame f (allCells b.rows b.cols) b
  have hcards : ((allCells b.rows b.cols).foldl (mapCellTaskP f) b).cards r c
      = (b.cards r c).map f :=
    mapFold_cards_mem f (allCells b.rows b.cols) b
      (nodup_allCells b.rows b.cols)
      ((mem_allCells b.rows b.cols r c).2 ⟨hr, hc⟩)
  exact ⟨f1, f2, f3, f4, f5, f6, hcards⟩

/-- Witness for C10 on the demo board. -/
theorem mapCards_frame_and_content_witness :
    (mapCards demoBoard String.toLower).1.rows = demoBoard.rows ∧
      (mapCards demoBoard String.toLower).1.cols = demoBoard.cols ∧
      (mapCards demoBoard String.toLower).1.faceUp = demoBoard.faceUp ∧
      (mapCards demoBoard String.toLower).1.control = demoBoard.control ∧
      (mapCards demoBoard String.toLower).1.playerState =
        demoBoard.playerState ∧
      (mapCards demoBoard String.toLower).1.waiting = demoBoard.waiting ∧
      (mapCards demoBoard String.toLower).1.cards 0 0 =
        (demoBoard.cards 0 0).map String.toLower :=
  mapCards_frame_and_content demoBoard String.toLower 0 0 (by decide)
    (by decide)

/-- C5: `mapCards` performs every per-cell transformation (each
in-range live cell holds the transformed content in the result) and
then issues exactly one notification, which wakes precisely the
watchers registered at that point and clears the registry. -/
theorem mapCards_one_final_notification (b : Board) (f : String → String)
    (r c : Nat) (hr : r < b.rows) (hc : c < b.cols) :
    (mapCards b f).2 = [Event.notify b.watchers] ∧
      (mapCards b f).1.watchers = [] ∧
      (mapCards b f).1.cards r c = (b.cards r c).map f := by
  obtain ⟨_, _, _, _, _, _, f7⟩ :=
    mapFold_frame f (allCells b.rows b.cols) b
  refine ⟨?_, rfl, mapFold_cards_mem f (allCells b.rows b.cols) b
    (nodup_allCells b.rows b.cols)
    ((mem_allCells b.rows b.cols r c).2 ⟨hr, hc⟩)⟩
  show [Event.notify ((allCells b.rows b.cols).foldl (mapCellTaskP f) b).watchers]
    = [Event.notify b.watchers]
  rw [f7]

/-- Witness for C5 on the demo board with one registered watcher. -/
theorem mapCards_one_final_notification_witness :
    (mapCards (watch demoBoard 7) String.toLower).2 =
      [Event.notify (watch demoBoard 7).watchers] ∧
      (mapCards (watch demoBoard 7) String.toLower).1.watchers = [] ∧
      (mapCards (watch demoBoard 7) String.toLower).1.cards 0 0 =
        ((watch demoBoard 7).cards 0 0).map String.toLower :=
  mapCards_one_final_notification (watch demoBoard 7) String.toLower 0 0
    (by decide) (by decide)

/-- Demo board where p1 holds (0,0), p2 holds (1,0) and watcher 0 is
registered. -/
def c3Board : Board :=
  watch c2Board 0

/-- C3 evaluated on the code: the second-pick failure step at the
contended cell (1,0) changes no cell content and no face-up flag (all
four cells are listed before and after), it only clears the controller
of (0,0) and updates p1's session, and yet it resolves the registered
watcher 0.  This is the behaviour the watch documentation and the spec
exclude: a watcher resolved by a controller-only change. -/
theorem loss_of_control_notifies_watcher :
    (flipCard c3Board "p1" 1 0).outcome = FlipOutcome.alreadyControlled ∧
      (flipCard c3Board "p1" 1 0).events = [Event.notify [0]] ∧
      c3Board.cards 0 0 = some "A" ∧ c3Board.cards 0 1 = some "A" ∧
      c3Board.cards 1 0 = some "B" ∧ c3Board.cards 1 1 = some "B" ∧
      (flipCard c3Board "p1" 1 0).board.cards 0 0 = some "A" ∧
      (flipCard c3Board "p1" 1 0).board.cards 0 1 = some "A" ∧
      (flipCard c3Board "p1" 1 0).board.cards 1 0 = some "B" ∧
      (flipCard c3Board "p1" 1 0).board.cards 1 1 = some "B" ∧
      c3Board.faceUp 0 0 = true ∧ c3Board.faceUp 0 1 = false ∧
      c3Board.faceUp 1 0 = true ∧ c3Board.faceUp 1 1 = false ∧
      (flipCard c3Board "p1" 1 0).board.faceUp 0 0 = true ∧
      (flipCard c3Board "p1" 1 0).board.faceUp 0 1 = false ∧
      (flipCard c3Board "p1" 1 0).board.faceUp 1 0 = true ∧
      (flipCard c3Board "p1" 1 0).board.faceUp 1 1 = false ∧
      c3Board.control 0 0 = some "p1" ∧
      (flipCard c3Board "p1" 1 0).board.control 0 0 = none := by
  decide
